import Mathlib

/- Verification development for the 4sale used-cars scraping pipeline.
   Shallow embedding of the orchestration, temporal-normalization, filtering and
   upload layers of the repository (main.py, DetailsScraper.py, SavingOnDrive.py).
   Timestamps are integer seconds; Python dicts keyed by possibly-None strings are
   association lists keyed by Option String; fallible Python code returns Except. -/

namespace FourSale

/-- Python exceptions raised by the modelled code fragments. -/
inductive PyErr
  | typeError
  | attributeError
  | indexError
deriving DecidableEq, Repr

/-- ASCII decimal digit test; the regex class d as it applies to the scraped ASCII text. -/
def isPyDigit (c : Char) : Bool := '0' ≤ c && c ≤ '9'

/-- Python whitespace class (regex s, str.split), restricted to the ASCII
whitespace characters that occur in the scraped text. -/
def isPySpace (c : Char) : Bool := c = ' ' || c = '\t' || c = '\n' || c = '\r'

/-- Greedy digit run: longest digit prefix and remainder. -/
def takeDigits : List Char → List Char × List Char
  | [] => ([], [])
  | c :: cs =>
    if isPyDigit c then
      let p := takeDigits cs
      (c :: p.1, p.2)
    else ([], c :: cs)

/-- Greedy whitespace run: longest whitespace prefix and remainder. -/
def takeSpaces : List Char → List Char × List Char
  | [] => ([], [])
  | c :: cs =>
    if isPySpace c then
      let p := takeSpaces cs
      (c :: p.1, p.2)
    else ([], c :: cs)

/-- Longest non-whitespace prefix and remainder. -/
def takeWord : List Char → List Char × List Char
  | [] => ([], [])
  | c :: cs =>
    if isPySpace c then ([], c :: cs)
    else
      let p := takeWord cs
      (c :: p.1, p.2)

/-- First whitespace-separated token of a character list, or `none` when there is
no token (Python `s.split()` yields an empty list there). -/
def pyFirstWordAux : List Char → Option (List Char)
  | [] => none
  | c :: cs => if isPySpace c then pyFirstWordAux cs else some (c :: (takeWord cs).1)

/-- Python `s.split()[0]`: first whitespace token; IndexError when the split list is empty. -/
def pyFirstWord (s : String) : Except PyErr String :=
  match pyFirstWordAux s.toList with
  | none => .error .indexError
  | some w => .ok (String.mk w)

/-- Decimal digit characters, fuel-based so that it reduces structurally; the
fuel `n + 1` always suffices since the argument shrinks by a factor of ten. -/
def natDigitsF : Nat → Nat → List Char
  | 0, _ => []
  | fuel + 1, n =>
    if n < 10 then [Char.ofNat (48 + n)]
    else natDigitsF fuel (n / 10) ++ [Char.ofNat (48 + n % 10)]

/-- Decimal digit characters of a natural number, most significant first. -/
def natDigits (n : Nat) : List Char := natDigitsF (n + 1) n

/-- Zero-padded decimal rendering of width `w` (strftime zero padding). -/
def padNum (w n : Nat) : List Char :=
  let ds := natDigits n
  List.replicate (w - ds.length) '0' ++ ds

/-- Gregorian civil date (year, month, day) from days since 1970-01-01: the
calendar arithmetic behind Python datetime / strftime (standard era-based
algorithm, truncating integer division as in its reference implementation). -/
def civilFromDays (z0 : Int) : Int × Int × Int :=
  let z := z0 + 719468
  let era := (if 0 ≤ z then z else z - 146096) / 146097
  let doe := z - era * 146097
  let yoe := (doe - doe / 1460 + doe / 36524 - doe / 146096) / 365
  let y := yoe + era * 400
  let doy := doe - (365 * yoe + yoe / 4 - yoe / 100)
  let mp := (5 * doy + 2) / 153
  let d := doy - (153 * mp + 2) / 5 + 1
  let m := if mp < 10 then mp + 3 else mp - 9
  (if m ≤ 2 then y + 1 else y, m, d)

/-- strftime "%Y-%m-%d" of an integer timestamp in seconds. -/
def dateStr (t : Int) : String :=
  let c := civilFromDays (t.fdiv 86400)
  String.mk (padNum 4 c.1.toNat ++ '-' :: padNum 2 c.2.1.toNat ++ '-' :: padNum 2 c.2.2.toNat)

/-- strftime "%H:%M:%S" of an integer timestamp in seconds. -/
def timeStr (t : Int) : String :=
  let sod := (t.fmod 86400).toNat
  String.mk (padNum 2 (sod / 3600) ++ ':' :: padNum 2 (sod % 3600 / 60) ++ ':' :: padNum 2 (sod % 60))

/-- strftime "%Y-%m-%d %H:%M:%S", the format returned by scrape_publish_date. -/
def formatDateTime (t : Int) : String :=
  dateStr t ++ " " ++ timeStr t

/-- The characters of the lowercased regex alternative "Second". -/
def secondW : List Char := ['s', 'e', 'c', 'o', 'n', 'd']

/-- The characters of the lowercased regex alternative "Minute". -/
def minuteW : List Char := ['m', 'i', 'n', 'u', 't', 'e']

/-- The characters of the lowercased regex alternative "Hour". -/
def hourW : List Char := ['h', 'o', 'u', 'r']

/-- The characters of the lowercased regex alternative "Day". -/
def dayW : List Char := ['d', 'a', 'y']

/-- The four unit alternatives of the relative-time regex, lowercased, in
alternation order: Second | Minute | Hour | Day. -/
def unitWords : List (List Char) := [secondW, minuteW, hourW, dayW]

/-- Case-insensitive match of the lowercase word `w` at the start of `s`
(re.IGNORECASE on a fixed-alternative group). -/
def matchWord (w s : List Char) : Bool :=
  decide ((s.take w.length).map Char.toLower = w)

/-- The lowercased unit word matched at the start of `s` (match.group(2).lower()),
trying the regex alternatives in order. -/
def matchUnit (s : List Char) : Option (List Char) :=
  unitWords.find? (fun w => matchWord w s)

/-- Python int() on the digit string captured by group(1). -/
def digitsToNat (ds : List Char) : Nat :=
  ds.foldl (fun a c => a * 10 + (c.toNat - 48)) 0

/-- One anchored attempt of the relative-time regex: greedy digits, then at least
one whitespace, then a unit alternative. -/
def matchHere (s : List Char) : Option (Nat × List Char) :=
  let d := takeDigits s
  if d.1.isEmpty then none
  else
    let sp := takeSpaces d.2
    if sp.1.isEmpty then none
    else (matchUnit sp.2).map (fun w => (digitsToNat d.1, w))

/-- re.search over the relative-time pattern: leftmost successful start position. -/
def searchRel : List Char → Option (Nat × List Char)
  | [] => none
  | c :: cs =>
    match matchHere (c :: cs) with
    | some r => some r
    | none => searchRel cs

/-- DetailsScraping.scrape_publish_date: regex-search the relative-time text,
subtract the parsed amount from the current time and format it.  A `none`
argument models a Python None relative time, on which re.search raises
TypeError; a non-matching string yields the sentinel "Invalid Relative Time". -/
def scrape_publish_date (relative_time : Option String) (now : Int) : Except PyErr String :=
  match relative_time with
  | none => .error .typeError
  | some s =>
    match searchRel s.toList with
    | none => .ok "Invalid Relative Time"
    | some (number, unit) =>
      if unit = secondW then .ok (formatDateTime (now - (number : Int)))
      else if unit = minuteW then .ok (formatDateTime (now - (number : Int) * 60))
      else if unit = hourW then .ok (formatDateTime (now - (number : Int) * 3600))
      else if unit = dayW then .ok (formatDateTime (now - (number : Int) * 86400))
      else .ok "Unsupported time unit found."

deriving instance DecidableEq for Except

/-- The dictionary returned by a successful DetailsScraping.scrape_more_details
call.  Fields that the helper scrapers may leave as Python None are Option;
fields that always carry a value on this path (their scrapers substitute
defaults, and a None relative date would have raised inside
scrape_publish_date, turning the whole call into the failure path) are plain. -/
structure MoreDetails where
  id : Option String
  description : String
  image : Option String
  price : String
  address : String
  additional_details : List String
  specifications : List (String × String)
  views_no : Option String
  submitter : Option String
  ads : Option String
  membership : Option String
  phone : Option String
  relative_date : String
  date_published : String
deriving DecidableEq, Repr

/-- One listing record as assembled by DetailsScraping.get_car_details.  Every
key is always present; Option fields model values that may be Python None. -/
structure CarDetail where
  id : Option String
  date_published : Option String
  relative_date : Option String
  pin : String
  type : Option String
  title : Option String
  description : Option String
  link : Option String
  image : Option String
  price : Option String
  address : Option String
  additional_details : Option (List String)
  specifications : Option (List (String × String))
  views_no : Option String
  submitter : Option String
  ads : Option String
  membership : Option String
  phone : Option String
deriving DecidableEq, Repr

/-- One listing card of the search-results page, together with the outcome of
the per-card detail-page scrape: `none` for `moreDetails` means
scrape_more_details raised somewhere and returned the empty dict. -/
structure Card where
  rawlink : Option String
  cardType : Option String
  title : Option String
  pinText : Option String
  moreDetails : Option MoreDetails
deriving DecidableEq, Repr

/-- DetailsScraping.scrape_link: prefix the site base URL onto the card href. -/
def scrape_link (c : Card) : Option String :=
  match c.rawlink with
  | some r => some ("https://www.q84sale.com" ++ r)
  | none => none

/-- DetailsScraping.scrape_pinned_today on the card's first tail text. -/
def scrape_pinned_today (c : Card) : String :=
  match c.pinText with
  | some t => if t = "Pinned today" then "Pinned today" else "Not Pinned"
  | none => "Not Pinned"

/-- Python dict.get on the scrape_more_details result: the empty dict of the
failure path yields None for every key. -/
def mdGetO (md : Option MoreDetails) (f : MoreDetails → Option String) : Option String :=
  match md with
  | none => none
  | some m => f m

/-- dict.get for a key that holds a plain string on the success path. -/
def mdGetS (md : Option MoreDetails) (f : MoreDetails → String) : Option String :=
  match md with
  | none => none
  | some m => some (f m)

/-- dict.get for the list-valued additional_details key. -/
def mdGetL (md : Option MoreDetails) : Option (List String) :=
  match md with
  | none => none
  | some m => some m.additional_details

/-- dict.get for the mapping-valued specifications key. -/
def mdGetM (md : Option MoreDetails) : Option (List (String × String)) :=
  match md with
  | none => none
  | some m => some m.specifications

/-- The record literal appended for one card inside get_car_details. -/
def buildRecord (c : Card) : CarDetail :=
  let md := c.moreDetails
  { id := mdGetO md (fun m => m.id)
    date_published := mdGetS md (fun m => m.date_published)
    relative_date := mdGetS md (fun m => m.relative_date)
    pin := scrape_pinned_today c
    type := c.cardType
    title := c.title
    description := mdGetS md (fun m => m.description)
    link := scrape_link c
    image := mdGetO md (fun m => m.image)
    price := mdGetS md (fun m => m.price)
    address := mdGetS md (fun m => m.address)
    additional_details := mdGetL md
    specifications := mdGetM md
    views_no := mdGetO md (fun m => m.views_no)
    submitter := mdGetO md (fun m => m.submitter)
    ads := mdGetO md (fun m => m.ads)
    membership := mdGetO md (fun m => m.membership)
    phone := mdGetO md (fun m => m.phone) }

/-- One successful pass of the card loop in DetailsScraping.get_car_details:
every card on the page yields exactly one appended record. -/
def get_car_details_pass (cards : List Card) : List CarDetail :=
  cards.map buildRecord

/-- A per-category dataset: a Python dict keyed by the (possibly None) car type,
modelled as an insertion-ordered association list. -/
abbrev Dataset := List (Option String × List CarDetail)

/-- result.setdefault(car_type, []).append(detail): append to the list of the
first entry with this key, or add a new key at the end. -/
def alistApp (k : Option String) (v : CarDetail) : Dataset → Dataset
  | [] => [(k, [v])]
  | (k₀, vs) :: rest =>
    if k₀ = k then (k₀, vs ++ [v]) :: rest else (k₀, vs) :: alistApp k v rest

/-- car_data.setdefault(car_type, []).extend(details), used by scrape_brand. -/
def alistExtend (k : Option String) (vs : List CarDetail) : Dataset → Dataset
  | [] => [(k, vs)]
  | (k₀, vs₀) :: rest =>
    if k₀ = k then (k₀, vs₀ ++ vs) :: rest else (k₀, vs₀) :: alistExtend k vs rest

/-- detail.get("date_published", "").split()[0].  The key is always present in
records built by get_car_details, so the "" default is dead; a stored None
raises AttributeError on .split(), an empty string raises IndexError on [0]. -/
def detailDateHead (d : CarDetail) : Except PyErr String :=
  match d.date_published with
  | none => .error .attributeError
  | some s => pyFirstWord s

/-- detail.get("type", "unknown").  The key is always present in records built
by get_car_details, so the "unknown" default is dead code and the stored value
(possibly None, possibly empty) is returned unchanged. -/
def dictGetType (d : CarDetail) : Option String := d.type

/-- The filter loop of ScraperMain.scrape_page over one car_details list: keep
the records whose published date component equals `yesterday`, grouped by car
type.  A raise inside the loop stops it, returning the mutations made so far
together with the exception. -/
def filterLoop (yesterday : String) : List CarDetail → Dataset → Dataset × Option PyErr
  | [], acc => (acc, none)
  | d :: ds, acc =>
    match detailDateHead d with
    | .error e => (acc, some e)
    | .ok h =>
      filterLoop yesterday ds (if h = yesterday then alistApp (dictGetType d) d acc else acc)

/-- Outcome of one scraper.get_car_details() call: a raised exception, or the
returned list of records. -/
inductive FetchOutcome
  | raise
  | ok (details : List CarDetail)

/-- Observable outcome of ScraperMain.scrape_page: the returned dataset, the
retry sleeps performed (seconds), and the number of attempts made. -/
structure PageRun where
  result : Dataset
  delays : List Nat
  attempts : Nat
deriving DecidableEq, Repr

/-- The retry loop of ScraperMain.scrape_page (max_retries = 3, base_delay = 5):
each attempt fetches and filters inside try; on an exception the code sleeps
base_delay * (attempt + 1) unless this was the final attempt.  The result dict
is created once, outside the loop, so mutations survive a failed attempt. -/
def scrape_page_loop (att : Nat → FetchOutcome) (yesterday : String) :
    List Nat → Dataset → List Nat → PageRun
  | [], result, delays => ⟨result, delays, 3⟩
  | attempt :: rest, result, delays =>
    match att attempt with
    | .ok details =>
      match filterLoop yesterday details result with
      | (result', none) => ⟨result', delays, attempt + 1⟩
      | (result', some _) =>
        if attempt < 2 then scrape_page_loop att yesterday rest result' (delays ++ [5 * (attempt + 1)])
        else scrape_page_loop att yesterday rest result' delays
    | .raise =>
      if attempt < 2 then scrape_page_loop att yesterday rest result (delays ++ [5 * (attempt + 1)])
      else scrape_page_loop att yesterday rest result delays

/-- ScraperMain.scrape_page: run the attempts `range(3)` on an initially empty
result dict. -/
def scrape_page (att : Nat → FetchOutcome) (yesterday : String) : PageRun :=
  scrape_page_loop att yesterday (List.range 3) [] []

/-- The merge step of ScraperMain.scrape_brand: for each car_type of a page
result, car_data.setdefault(car_type, []).extend(details). -/
def merge_into (car_data : Dataset) (result : Dataset) : Dataset :=
  result.foldl (fun cd kv => alistExtend kv.1 kv.2 cd) car_data

/-- ScraperMain.scrape_brand: compute yesterday once from the job start time,
then sequentially scrape every page and merge its result into car_data. -/
def scrape_brand (start : Int) (pageAtts : List (Nat → FetchOutcome)) : Dataset :=
  let yesterday := dateStr (start - 86400)
  pageAtts.foldl (fun cd att => merge_into cd (scrape_page att yesterday).result) []

/-- A record `d` is present in dataset `m` under key `k`. -/
def pairMem (d : CarDetail) (k : Option String) (m : Dataset) : Prop :=
  ∃ e ∈ m, e.1 = k ∧ d ∈ e.2

instance (d : CarDetail) (k : Option String) (m : Dataset) : Decidable (pairMem d k m) := by
  unfold pairMem
  infer_instance

/-- One folder known to the remote Drive; ids are opaque tokens, modelled as
naturals. -/
structure DriveFolder where
  fid : Nat
  fname : String
  parent : Option Nat
  isFolder : Bool
deriving DecidableEq, Repr

/-- The remote Drive folder listing, plus a counter supplying fresh ids. -/
structure DriveState where
  folders : List DriveFolder
  nextId : Nat
deriving DecidableEq, Repr

/-- The files().list query of SavingOnDrive.create_folder: name equality, the
folder mimeType, and — only when a parent was given — the parent constraint. -/
def folderQuery (st : DriveState) (folder_name : String) (parent : Option Nat) : List DriveFolder :=
  st.folders.filter fun f =>
    f.fname = folder_name && f.isFolder &&
      (match parent with
       | none => true
       | some p => f.parent = some p)

/-- SavingOnDrive.create_folder: query for an existing folder by name, folder
type and (optional) parent; reuse the first hit, otherwise create.  Returns the
folder id, the new state, and whether a files().create call was made. -/
def create_folder (st : DriveState) (folder_name : String) (parent : Option Nat) :
    Option Nat × DriveState × Bool :=
  match folderQuery st folder_name parent with
  | f :: _ => (some f.fid, st, false)
  | [] =>
    let f : DriveFolder := ⟨st.nextId, folder_name, parent, true⟩
    (some f.fid, { folders := st.folders ++ [f], nextId := st.nextId + 1 }, true)

/-- Outcome of one files().create upload attempt inside
SavingOnDrive.upload_file. -/
inductive UploadAttempt
  | success (fileId : Nat)
  | sslEOF
  | http (status : Nat)
  | other
deriving DecidableEq, Repr

/-- Observable outcome of SavingOnDrive.upload_file: the returned file id (None
on failure), the retry sleeps performed (seconds), and attempts made. -/
structure UploadRun where
  result : Option Nat
  delays : List Nat
  attempts : Nat
deriving DecidableEq, Repr

/-- The retry loop of SavingOnDrive.upload_file (retries = 5): SSL EOF errors
and HTTP 403/500/503 sleep 2 ^ i then retry; any other HTTP error or unexpected
exception breaks out at once; the for-else reports failure after all five
attempts (the fifth transient failure still sleeps before the loop ends). -/
def upload_file_loop (att : Nat → UploadAttempt) : List Nat → List Nat → UploadRun
  | [], delays => ⟨none, delays, 5⟩
  | i :: rest, delays =>
    match att i with
    | .success fileId => ⟨some fileId, delays, i + 1⟩
    | .sslEOF => upload_file_loop att rest (delays ++ [2 ^ i])
    | .http status =>
      if status = 403 ∨ status = 500 ∨ status = 503 then
        upload_file_loop att rest (delays ++ [2 ^ i])
      else ⟨none, delays, i + 1⟩
    | .other => ⟨none, delays, i + 1⟩

/-- SavingOnDrive.upload_file: run the attempts `range(5)`. -/
def upload_file (att : Nat → UploadAttempt) : UploadRun :=
  upload_file_loop att (List.range 5) []

/-- The two fixed destination parent-folder ids of SavingOnDrive.save_files
(opaque Drive id strings in the source, opaque naturals here). -/
def parent_folder_ids : List Nat := [0, 1]

/-- The remote side seen by one run: the Drive folder listing plus, for every
(file name, folder id), the outcome of each upload attempt. -/
structure UploadEnv where
  st : DriveState
  att : String → Nat → Nat → UploadAttempt

/-- SavingOnDrive.save_files: for each destination parent, resolve-or-create
yesterday's dated subfolder, then upload every file into it.  Per-upload
failures are swallowed inside upload_file (they only print), so this function
always returns; it reports the per-upload results for inspection. -/
def save_files (env : UploadEnv) (now : Int) (files : List String) :
    DriveState × List (Option Nat) :=
  let yesterday := dateStr (now - 86400)
  parent_folder_ids.foldl
    (fun (acc : DriveState × List (Option Nat)) parent =>
      let r := create_folder acc.1 yesterday (some parent)
      match r.1 with
      | some folder_id =>
        (r.2.1, acc.2 ++ files.map fun f => (upload_file (env.att f folder_id)).result)
      | none => (r.2.1, acc.2))
    (env.st, [])

/-- ScraperMain.upload_files_with_retry: for each pending file, up to three
attempts; each attempt calls save_files when the file exists locally and then
marks the file uploaded and breaks.  save_files never raises in this model
(matching the source, where every upload failure is caught and printed), so the
first attempt always succeeds and the retry arm is dead. -/
def upload_files_with_retry (env : UploadEnv) (now : Int) (localFiles : List String)
    (files : List String) : List String × DriveState × List (Option Nat) :=
  files.foldl
    (fun (acc : List String × DriveState × List (Option Nat)) file =>
      if file ∈ localFiles then
        let r := save_files { st := acc.2.1, att := env.att } now [file]
        (acc.1 ++ [file], r.1, acc.2.2 ++ r.2)
      else acc)
    ([], env.st, [])

/-- The per-chunk upload-then-cleanup step of ScraperMain.scrape_all_brands:
upload the pending files, then os.remove every file in uploaded_files.  Returns
the surviving local files and the per-upload results. -/
def chunk_upload_cleanup (env : UploadEnv) (now : Int) (localFiles pending : List String) :
    List String × List (Option Nat) :=
  let r := upload_files_with_retry env now localFiles pending
  (localFiles.filter (fun f => f ∉ r.1), r.2.2)

/-! ### Upload layer: folder idempotence, upload retry/backoff, cleanup -/

/-- A transient upload failure in the sense of SavingOnDrive.upload_file: an
SSL EOF error, or an HTTP error whose status is on the 403/500/503 allow-list. -/
def transientFail : UploadAttempt → Bool
  | .sslEOF => true
  | .http status => decide (status = 403 ∨ status = 500 ∨ status = 503)
  | _ => false

lemma upload_loop_all_transient (att : Nat → UploadAttempt) :
    ∀ (n j : Nat) (delays : List Nat), (∀ i, i < n → transientFail (att (j + i)) = true) →
      upload_file_loop att (List.range' j n) delays
        = ⟨none, delays ++ (List.range' j n).map (2 ^ ·), 5⟩ := by
  intro n
  induction n with
  | zero => intro j delays _; simp [upload_file_loop]
  | succ n ih =>
    intro j delays h
    have hj : transientFail (att j) = true := by simpa using h 0 (Nat.succ_pos n)
    have hrec : ∀ i, i < n → transientFail (att (j + 1 + i)) = true := fun i hi => by
      have h' := h (i + 1) (by omega)
      rwa [show j + (i + 1) = j + 1 + i by omega] at h'
    rw [List.range'_succ]
    cases hatt : att j with
    | success fid => rw [hatt] at hj; simp [transientFail] at hj
    | other => rw [hatt] at hj; simp [transientFail] at hj
    | sslEOF =>
      rw [upload_file_loop, hatt, ih (j + 1) (delays ++ [2 ^ j]) hrec]
      simp [List.range'_succ]
    | http status =>
      have hkt : status = 403 ∨ status = 500 ∨ status = 503 := by
        rw [hatt] at hj; simpa [transientFail] using hj
      simp only [upload_file_loop, hatt]
      rw [if_pos hkt, ih (j + 1) (delays ++ [2 ^ j]) hrec]
      simp [List.range'_succ]

lemma upload_loop_skip_transient (att : Nat → UploadAttempt) :
    ∀ (k : Nat), k ≤ 5 → (∀ i, i < k → transientFail (att i) = true) →
      upload_file att = upload_file_loop att (List.range' k (5 - k)) ((List.range k).map (2 ^ ·)) := by
  intro k
  induction k with
  | zero => intro _ _; simp [upload_file, List.range_eq_range']
  | succ k ih =>
    intro hk h
    have hstep := ih (by omega) (fun i hi => h i (by omega))
    have hk5 : 5 - k = (5 - (k + 1)) + 1 := by omega
    rw [hstep, hk5, List.range'_succ]
    have hkt := h k (Nat.lt_succ_self k)
    cases hatt : att k with
    | success fid => rw [hatt] at hkt; simp [transientFail] at hkt
    | other => rw [hatt] at hkt; simp [transientFail] at hkt
    | sslEOF =>
      rw [upload_file_loop, hatt]
      simp [List.range_succ]
    | http status =>
      have hkt' : status = 403 ∨ status = 500 ∨ status = 503 := by
        rw [hatt] at hkt; simpa [transientFail] using hkt
      simp only [upload_file_loop, hatt]
      rw [if_pos hkt']
      simp [List.range_succ]

/-- Claim C4: per-destination upload retry.  If the first `k < 5` attempts fail
transiently (SSL EOF or HTTP 403/500/503) and attempt `k` succeeds, upload_file
reports the file id after `k + 1` attempts with inter-attempt sleeps
`2 ^ 0, ..., 2 ^ (k - 1)`; if every one of the five attempts fails transiently
it reports failure (None) after exactly five attempts; a non-transient failure
on attempt `k` aborts the loop at once, after `k + 1` attempts and no further
sleep. -/
theorem c4_upload_retry_backoff (att : Nat → UploadAttempt) (k fid : Nat) :
    (k < 5 → (∀ i, i < k → transientFail (att i) = true) → att k = .success fid →
      upload_file att = ⟨some fid, (List.range k).map (2 ^ ·), k + 1⟩)
    ∧ ((∀ i, i < 5 → transientFail (att i) = true) →
      upload_file att = ⟨none, (List.range 5).map (2 ^ ·), 5⟩)
    ∧ (k < 5 → (∀ i, i < k → transientFail (att i) = true) →
      transientFail (att k) = false → (∀ j, att k ≠ .success j) →
      upload_file att = ⟨none, (List.range k).map (2 ^ ·), k + 1⟩) := by
  refine ⟨fun hk h hsucc => ?_, fun h => ?_, fun hk h hfat hnos => ?_⟩
  · rw [upload_loop_skip_transient att k (by omega) h]
    have hk5 : 5 - k = (5 - (k + 1)) + 1 := by omega
    rw [hk5, List.range'_succ, upload_file_loop, hsucc]
  · rw [upload_loop_skip_transient att 5 (by omega) h]
    simp [upload_file_loop, List.range_eq_range']
  · rw [upload_loop_skip_transient att k (by omega) h]
    have hk5 : 5 - k = (5 - (k + 1)) + 1 := by omega
    rw [hk5, List.range'_succ]
    cases hatt : att k with
    | success fid => exact absurd hatt (hnos fid)
    | sslEOF => rw [hatt] at hfat; simp [transientFail] at hfat
    | other => rw [upload_file_loop, hatt]
    | http status =>
      have hfat' : ¬(status = 403 ∨ status = 500 ∨ status = 503) := by
        rw [hatt] at hfat; simpa [transientFail] using hfat
      simp only [upload_file_loop, hatt]
      rw [if_neg hfat']

/-- Witness for C4: two SSL failures then success gives file id 7 after three
attempts with sleeps 1 and 2 seconds. -/
theorem c4_upload_retry_backoff_witness :
    upload_file (fun i => if i < 2 then .sslEOF else .success 7)
      = ⟨some 7, (List.range 2).map (2 ^ ·), 3⟩ :=
  (c4_upload_retry_backoff (fun i => if i < 2 then .sslEOF else .success 7) 2 7).1
    (by omega) (fun i hi => by interval_cases i <;> rfl) rfl

/-- Claim C5: resolve-or-create of a dated subfolder is idempotent.  Two
successive create_folder calls with the same name and parent return the same
folder id (both times a real id), and the second call never issues a remote
folder-creation request, so across both calls at most one folder is created. -/
theorem c5_create_folder_idempotent (st : DriveState) (folder_name : String) (parent : Option Nat) :
    (create_folder (create_folder st folder_name parent).2.1 folder_name parent).1
      = (create_folder st folder_name parent).1
    ∧ (create_folder st folder_name parent).1.isSome
    ∧ (create_folder (create_folder st folder_name parent).2.1 folder_name parent).2.2 = false := by
  cases h : folderQuery st folder_name parent with
  | cons f rest => simp [create_folder, h]
  | nil =>
    have hnew : folderQuery
        { folders := st.folders ++ [⟨st.nextId, folder_name, parent, true⟩], nextId := st.nextId + 1 }
        folder_name parent = [⟨st.nextId, folder_name, parent, true⟩] := by
      unfold folderQuery at h ⊢
      rw [List.filter_append, h, List.nil_append]
      cases parent <;> simp
    simp [create_folder, h, hnew]

/-- The environment of the C1 run: an empty remote folder listing and a remote
side on which every upload attempt fails with HTTP 503. -/
def c1Env : UploadEnv := ⟨⟨[], 100⟩, fun _ _ _ => .http 503⟩

/-- Claim C1 (code bug): with the artifact "brand.xlsx" present locally and
every upload attempt to both destination folders failing with HTTP 503, the
run still deletes the local file.  save_files swallows the per-upload failures
(both dated subfolders are created, both uploads return None), so
upload_files_with_retry marks the file uploaded and the cleanup loop removes
it: the final local file list is empty even though no destination received the
artifact, contradicting the claimed retention on failed uploads. -/
theorem c1_cleanup_deletes_despite_failed_uploads :
    chunk_upload_cleanup c1Env 200000 ["brand.xlsx"] ["brand.xlsx"] = ([], [none, none]) := by
  decide

/-! ### Dataset membership lemmas -/

lemma pairMem_alistApp {d : CarDetail} {k k' : Option String} {v : CarDetail} :
    ∀ {m : Dataset}, pairMem d k (alistApp k' v m) → pairMem d k m ∨ (d = v ∧ k = k') := by
  intro m
  induction m with
  | nil =>
    rintro ⟨e, he, hk, hd⟩
    simp [alistApp] at he
    subst he
    simp at hk hd
    exact Or.inr ⟨hd, hk.symm⟩
  | cons e₀ rest ih =>
    obtain ⟨k₀, vs₀⟩ := e₀
    by_cases hk₀ : k₀ = k'
    · rintro ⟨e, he, hk, hd⟩
      rw [alistApp, if_pos hk₀] at he
      rcases List.mem_cons.1 he with he | he
      · subst he
        simp at hk hd
        rcases hd with hd | hd
        · exact Or.inl ⟨(k₀, vs₀), List.mem_cons_self _ _, hk, hd⟩
        · exact Or.inr ⟨hd, by rw [← hk, hk₀]⟩
      · exact Or.inl ⟨e, List.mem_cons_of_mem _ he, hk, hd⟩
    · rintro ⟨e, he, hk, hd⟩
      rw [alistApp, if_neg hk₀] at he
      rcases List.mem_cons.1 he with he | he
      · exact Or.inl ⟨e, by rw [he]; exact List.mem_cons_self _ _, hk, hd⟩
      · rcases ih ⟨e, he, hk, hd⟩ with h | h
        · obtain ⟨e', he', hk', hd'⟩ := h
          exact Or.inl ⟨e', List.mem_cons_of_mem _ he', hk', hd'⟩
        · exact Or.inr h

lemma pairMem_alistExtend_mono {d : CarDetail} {k k' : Option String} {vs : List CarDetail} :
    ∀ {m : Dataset}, pairMem d k m → pairMem d k (alistExtend k' vs m) := by
  intro m
  induction m with
  | nil => rintro ⟨e, he, _, _⟩; simp at he
  | cons e₀ rest ih =>
    obtain ⟨k₀, vs₀⟩ := e₀
    rintro ⟨e, he, hk, hd⟩
    by_cases hk₀ : k₀ = k'
    · rw [alistExtend, if_pos hk₀]
      rcases List.mem_cons.1 he with he | he
      · subst he
        simp at hk hd
        exact ⟨(k₀, vs₀ ++ vs), List.mem_cons_self _ _, hk, List.mem_append_left _ hd⟩
      · exact ⟨e, List.mem_cons_of_mem _ he, hk, hd⟩
    · rw [alistExtend, if_neg hk₀]
      rcases List.mem_cons.1 he with he | he
      · exact ⟨e, by rw [he]; exact List.mem_cons_self _ _, hk, hd⟩
      · obtain ⟨e', he', hk', hd'⟩ := ih ⟨e, he, hk, hd⟩
        exact ⟨e', List.mem_cons_of_mem _ he', hk', hd'⟩

lemma pairMem_alistExtend_self {d : CarDetail} {k : Option String} {vs : List CarDetail}
    (hd : d ∈ vs) : ∀ {m : Dataset}, pairMem d k (alistExtend k vs m) := by
  intro m
  induction m with
  | nil => exact ⟨(k, vs), by simp [alistExtend], rfl, hd⟩
  | cons e₀ rest ih =>
    obtain ⟨k₀, vs₀⟩ := e₀
    by_cases hk₀ : k₀ = k
    · rw [alistExtend, if_pos hk₀]
      exact ⟨(k₀, vs₀ ++ vs), List.mem_cons_self _ _, hk₀, List.mem_append_right _ hd⟩
    · rw [alistExtend, if_neg hk₀]
      obtain ⟨e', he', hk', hd'⟩ := ih
      exact ⟨e', List.mem_cons_of_mem _ he', hk', hd'⟩

lemma pairMem_alistExtend {d : CarDetail} {k k' : Option String} {vs : List CarDetail} :
    ∀ {m : Dataset}, pairMem d k (alistExtend k' vs m) → pairMem d k m ∨ (k = k' ∧ d ∈ vs) := by
  intro m
  induction m with
  | nil =>
    rintro ⟨e, he, hk, hd⟩
    simp [alistExtend] at he
    subst he
    simp at hk
    exact Or.inr ⟨hk.symm, hd⟩
  | cons e₀ rest ih =>
    obtain ⟨k₀, vs₀⟩ := e₀
    by_cases hk₀ : k₀ = k'
    · rintro ⟨e, he, hk, hd⟩
      rw [alistExtend, if_pos hk₀] at he
      rcases List.mem_cons.1 he with he | he
      · subst he
        simp at hk hd
        rcases hd with hd | hd
        · exact Or.inl ⟨(k₀, vs₀), List.mem_cons_self _ _, hk, hd⟩
        · exact Or.inr ⟨by rw [← hk, hk₀], hd⟩
      · exact Or.inl ⟨e, List.mem_cons_of_mem _ he, hk, hd⟩
    · rintro ⟨e, he, hk, hd⟩
      rw [alistExtend, if_neg hk₀] at he
      rcases List.mem_cons.1 he with he | he
      · exact Or.inl ⟨e, by rw [he]; exact List.mem_cons_self _ _, hk, hd⟩
      · rcases ih ⟨e, he, hk, hd⟩ with h | h
        · obtain ⟨e', he', hk', hd'⟩ := h
          exact Or.inl ⟨e', List.mem_cons_of_mem _ he', hk', hd'⟩
        · exact Or.inr h

lemma pairMem_merge_into_left {d : CarDetail} {k : Option String} :
    ∀ (r : Dataset) {cd : Dataset}, pairMem d k cd → pairMem d k (merge_into cd r) := by
  intro r
  induction r with
  | nil => intro cd h; exact h
  | cons e rest ih =>
    intro cd h
    exact ih (pairMem_alistExtend_mono h)

lemma pairMem_merge_into_right {d : CarDetail} {k : Option String} :
    ∀ (r : Dataset) {cd : Dataset}, pairMem d k r → pairMem d k (merge_into cd r) := by
  intro r
  induction r with
  | nil => rintro cd ⟨e, he, _, _⟩; simp at he
  | cons e₀ rest ih =>
    obtain ⟨k₀, vs₀⟩ := e₀
    rintro cd ⟨e, he, hk, hd⟩
    rcases List.mem_cons.1 he with he | he
    · subst he
      simp at hk hd
      subst hk
      exact pairMem_merge_into_left rest (pairMem_alistExtend_self hd)
    · exact ih ⟨e, he, hk, hd⟩

lemma pairMem_merge_into {d : CarDetail} {k : Option String} :
    ∀ (r : Dataset) {cd : Dataset}, pairMem d k (merge_into cd r) →
      pairMem d k cd ∨ pairMem d k r := by
  intro r
  induction r with
  | nil => intro cd h; exact Or.inl h
  | cons e₀ rest ih =>
    obtain ⟨k₀, vs₀⟩ := e₀
    intro cd h
    rcases ih h with h' | h'
    · rcases pairMem_alistExtend h' with h'' | h''
      · exact Or.inl h''
      · exact Or.inr ⟨(k₀, vs₀), List.mem_cons_self _ _, h''.1.symm, h''.2⟩
    · obtain ⟨e', he', hk', hd'⟩ := h'
      exact Or.inr ⟨e', List.mem_cons_of_mem _ he', hk', hd'⟩

lemma filterLoop_mem {yesterday : String} {d : CarDetail} {k : Option String} :
    ∀ (ds : List CarDetail) {acc : Dataset}, pairMem d k (filterLoop yesterday ds acc).1 →
      pairMem d k acc ∨ (detailDateHead d = .ok yesterday ∧ k = d.type) := by
  intro ds
  induction ds with
  | nil => intro acc h; exact Or.inl h
  | cons d₀ ds ih =>
    intro acc h
    rw [filterLoop] at h
    cases hh : detailDateHead d₀ with
    | error e => simp only [hh] at h; exact Or.inl h
    | ok hd =>
      simp only [hh] at h
      rcases ih h with h' | h'
      · by_cases hy : hd = yesterday
        · rw [if_pos hy] at h'
          rcases pairMem_alistApp h' with h'' | h''
          · exact Or.inl h''
          · obtain ⟨rfl, hk⟩ := h''
            exact Or.inr ⟨by rw [hh, hy], by simpa [dictGetType] using hk⟩
        · rw [if_neg hy] at h'
          exact Or.inl h'
      · exact Or.inr h'

lemma scrape_page_loop_mem {att : Nat → FetchOutcome} {yesterday : String}
    {d : CarDetail} {k : Option String} :
    ∀ (attempts : List Nat) (result : Dataset) (delays : List Nat),
      pairMem d k (scrape_page_loop att yesterday attempts result delays).result →
      pairMem d k result ∨ (detailDateHead d = .ok yesterday ∧ k = d.type) := by
  intro attempts
  induction attempts with
  | nil => intro result delays h; exact Or.inl h
  | cons attempt rest ih =>
    intro result delays h
    rw [scrape_page_loop] at h
    cases hatt : att attempt with
    | raise =>
      simp only [hatt] at h
      by_cases h2 : attempt < 2
      · rw [if_pos h2] at h; exact ih _ _ h
      · rw [if_neg h2] at h; exact ih _ _ h
    | ok details =>
      cases hfl : filterLoop yesterday details result with
      | mk result' e? =>
        cases e? with
        | none =>
          simp only [hatt, hfl] at h
          exact filterLoop_mem details (show pairMem d k (filterLoop yesterday details result).1 by
            rw [hfl]; exact h)
        | some e =>
          simp only [hatt, hfl] at h
          have hres : ∀ h'' : pairMem d k result',
              pairMem d k result ∨ (detailDateHead d = .ok yesterday ∧ k = d.type) :=
            fun h'' => filterLoop_mem details (show pairMem d k (filterLoop yesterday details result).1 by
              rw [hfl]; exact h'')
          by_cases h2 : attempt < 2
          · rw [if_pos h2] at h
            rcases ih _ _ h with h'' | h''
            · exact hres h''
            · exact Or.inr h''
          · rw [if_neg h2] at h
            rcases ih _ _ h with h'' | h''
            · exact hres h''
            · exact Or.inr h''

lemma scrape_page_mem {att : Nat → FetchOutcome} {yesterday : String}
    {d : CarDetail} {k : Option String}
    (h : pairMem d k (scrape_page att yesterday).result) :
    detailDateHead d = .ok yesterday ∧ k = d.type := by
  rcases @scrape_page_loop_mem att yesterday d k (List.range 3) [] [] h with h' | h'
  · obtain ⟨e, he, _, _⟩ := h'
    simp at he
  · exact h'

lemma scrape_brand_mem {start : Int} {pageAtts : List (Nat → FetchOutcome)}
    {d : CarDetail} {k : Option String}
    (h : pairMem d k (scrape_brand start pageAtts)) :
    detailDateHead d = .ok (dateStr (start - 86400)) ∧ k = d.type := by
  rw [scrape_brand] at h
  have main : ∀ (atts : List (Nat → FetchOutcome)) (cd : Dataset),
      pairMem d k (atts.foldl
        (fun c att => merge_into c (scrape_page att (dateStr (start - 86400))).result) cd) →
      pairMem d k cd ∨ (detailDateHead d = .ok (dateStr (start - 86400)) ∧ k = d.type) := by
    intro atts
    induction atts with
    | nil => intro cd h'; exact Or.inl h'
    | cons a rest ih =>
      intro cd h'
      rcases ih _ h' with h'' | h''
      · rcases pairMem_merge_into _ h'' with h3 | h3
        · exact Or.inl h3
        · exact Or.inr (scrape_page_mem h3)
      · exact Or.inr h''
  rcases main pageAtts [] h with h' | h'
  · obtain ⟨e, he, _, _⟩ := h'
    simp at he
  · exact h'

/-! ### Concrete records for counterexamples and witnesses -/

/-- A well-formed record published on 1970-01-02 in category "Sedan". -/
def sedanDetail : CarDetail :=
  { id := some "1", date_published := some "1970-01-02 09:00:00",
    relative_date := some "2 Hours ago", pin := "Not Pinned", type := some "Sedan",
    title := some "Car A", description := some "No Description", link := none,
    image := none, price := some "0 KWD", address := some "Not Mentioned",
    additional_details := some [], specifications := some [], views_no := none,
    submitter := none, ads := none, membership := none, phone := none }

/-- A record whose detail scrape failed: its date_published is Python None, so
the target-day filter raises AttributeError on it. -/
def brokenDetail : CarDetail := { sedanDetail with date_published := none }

/-- A record whose card had no category element: its type value is Python
None. -/
def noCategoryDetail : CarDetail := { sedanDetail with type := none }

/-- A listing card whose detail-page scrape raised, so scrape_more_details
returned the empty dict. -/
def orphanCard : Card :=
  ⟨some "/en/ad/12345", some "Sedan", some "Car A", none, none⟩

/-! ### C3: page retry bound, linear backoff, result on exhaustion -/

/-- Counterexample to claim C3: all three scrape_page attempts fail (each
filter pass raises AttributeError on brokenDetail, whose date_published is
None), the two retry sleeps 5 and 10 happen, and yet the returned result is
not empty: the result dict lives outside the retry loop, so the records
filtered before each mid-loop raise survive — here sedanDetail is even
duplicated three times.  This refutes "on exhausting all retries it returns an
empty result for that page". -/
theorem c3_cex_nonempty_after_exhausted_retries :
    scrape_page (fun _ => .ok [sedanDetail, brokenDetail]) "1970-01-02"
      = ⟨[(some "Sedan", [sedanDetail, sedanDetail, sedanDetail])], [5, 10], 3⟩
    ∧ (scrape_page (fun _ => .ok [sedanDetail, brokenDetail]) "1970-01-02").result ≠ [] := by
  constructor
  · decide
  · decide

/-- Claim C3 as amended: scrape_page makes up to exactly 3 attempts with
sleeps base_delay * attemptNumber (5, then 10) between consecutive attempts;
when every attempt fails in the fetch itself (get_car_details raises) the page
returns the empty result after 3 attempts and sleeps [5, 10]; when the first
`k` attempts raise in the fetch and attempt `k` succeeds, the page returns the
filtered result after `k + 1` attempts with sleeps 5 * (i + 1) for i < k.
(Only the all-fetch-failure form of the exhaustion clause survives the
counterexample: a mid-filter raise leaves prior mutations in the shared result
dict.) -/
theorem c3_retry_linear_backoff (att : Nat → FetchOutcome) (yesterday : String) (k : Nat)
    (details : List CarDetail) (res : Dataset) :
    ((∀ i, i < 3 → att i = .raise) → scrape_page att yesterday = ⟨[], [5, 10], 3⟩)
    ∧ (k < 3 → (∀ i, i < k → att i = .raise) → att k = .ok details →
        filterLoop yesterday details [] = (res, none) →
        scrape_page att yesterday = ⟨res, (List.range k).map (fun i => 5 * (i + 1)), k + 1⟩) := by
  have hr3 : List.range 3 = [0, 1, 2] := by decide
  constructor
  · intro h
    have h0 := h 0 (by omega)
    have h1 := h 1 (by omega)
    have h2 := h 2 (by omega)
    rw [scrape_page, hr3]
    simp [scrape_page_loop, h0, h1, h2]
  · intro hk hpre hsucc hf
    interval_cases k
    · rw [scrape_page, hr3]
      simp [scrape_page_loop, hsucc, hf]
    · have h0 := hpre 0 (by omega)
      rw [scrape_page, hr3]
      simp [scrape_page_loop, h0, hsucc, hf]
      decide
    · have h0 := hpre 0 (by omega)
      have h1 := hpre 1 (by omega)
      rw [scrape_page, hr3]
      simp [scrape_page_loop, h0, h1, hsucc, hf]
      decide

/-- Witness for C3 (amended): a page whose fetch raises on all three attempts
returns the empty result after 3 attempts with sleeps 5 and 10. -/
theorem c3_retry_linear_backoff_witness :
    scrape_page (fun _ => FetchOutcome.raise) "1970-01-02" = ⟨[], [5, 10], 3⟩ :=
  (c3_retry_linear_backoff (fun _ => FetchOutcome.raise) "1970-01-02" 0 [] []).1
    (fun _ _ => rfl)

/-! ### C9: partial-result tolerance of a brand job -/

lemma pairMem_foldl_merge {d : CarDetail} {k : Option String} (y : String) :
    ∀ (atts : List (Nat → FetchOutcome)) (cd : Dataset), pairMem d k cd →
      pairMem d k (atts.foldl (fun c att => merge_into c (scrape_page att y).result) cd) := by
  intro atts
  induction atts with
  | nil => intro cd h; exact h
  | cons a rest ih => intro cd h; exact ih _ (pairMem_merge_into_left _ h)

/-- Claim C9: partial-result tolerance.  Every record grouped into any single
page's scrape_page result — in particular the records of the pages that
succeeded while a sibling page failed all of its retries and contributed
nothing — is present in the brand job's merged output dataset under the same
category key. -/
theorem c9_partial_result_tolerance (start : Int) (pageAtts : List (Nat → FetchOutcome))
    (i : Nat) (hi : i < pageAtts.length) (k : Option String) (d : CarDetail)
    (hd : pairMem d k (scrape_page (pageAtts.get ⟨i, hi⟩) (dateStr (start - 86400))).result) :
    pairMem d k (scrape_brand start pageAtts) := by
  rw [scrape_brand]
  have main : ∀ (atts : List (Nat → FetchOutcome)) (cd : Dataset) (j : Nat) (hj : j < atts.length),
      pairMem d k (scrape_page (atts.get ⟨j, hj⟩) (dateStr (start - 86400))).result →
      pairMem d k (atts.foldl
        (fun c att => merge_into c (scrape_page att (dateStr (start - 86400))).result) cd) := by
    intro atts
    induction atts with
    | nil => intro cd j hj; exact absurd hj (by simp)
    | cons a rest ih =>
      intro cd j hj hmem
      cases j with
      | zero =>
        exact pairMem_foldl_merge _ rest _ (pairMem_merge_into_right _ hmem)
      | succ j' =>
        exact ih _ j' (Nat.lt_of_succ_lt_succ hj) hmem
  exact main pageAtts [] i hi hd

/-- The three pages of the C9 witness brand job: pages 1 and 3 succeed with one
Sedan record, page 2 raises on every attempt. -/
def c9Pages : List (Nat → FetchOutcome) :=
  [fun _ => .ok [sedanDetail], fun _ => .raise, fun _ => .ok [sedanDetail]]

/-- Witness for C9: with the middle page failing all retries, the record of the
third page is still in the brand output under its "Sedan" key. -/
theorem c9_partial_result_tolerance_witness :
    pairMem sedanDetail (some "Sedan") (scrape_brand 200000 c9Pages) :=
  c9_partial_result_tolerance 200000 c9Pages 2 (by decide) (some "Sedan") sedanDetail (by decide)

/-! ### C8: category keys of aggregated records -/

/-- Counterexample to claim C8: a retained record whose extracted category is
absent (Python None, from a card without the category element) is aggregated
under the key None, not under "unknown": detail.get("type", "unknown") only
falls back when the key is missing, and get_car_details always stores the key,
None included. -/
theorem c8_cex_none_category_key :
    scrape_page (fun _ => .ok [noCategoryDetail]) "1970-01-02"
      = ⟨[(none, [noCategoryDetail])], [], 1⟩
    ∧ ¬ pairMem noCategoryDetail (some "unknown")
        (scrape_page (fun _ => .ok [noCategoryDetail]) "1970-01-02").result := by
  constructor
  · decide
  · decide

/-- Claim C8 as amended: the category key under which a record is aggregated is
exactly the record's stored type value — None, empty or whitespace-only values
are used unchanged; the "unknown" default would apply only to records lacking
the type key, which get_car_details never produces. -/
theorem c8_category_key_is_stored_type (start : Int) (pageAtts : List (Nat → FetchOutcome))
    (k : Option String) (d : CarDetail)
    (hmem : pairMem d k (scrape_brand start pageAtts)) : k = d.type :=
  (scrape_brand_mem hmem).2

/-- Witness for C8 (amended): the key of the retained Sedan record equals its
stored type value. -/
theorem c8_category_key_is_stored_type_witness :
    (some "Sedan" : Option String) = sedanDetail.type :=
  c8_category_key_is_stored_type 200000 [fun _ => .ok [sedanDetail]] (some "Sedan") sedanDetail
    (by decide)

/-! ### C10: records emitted for cards whose detail scrape failed -/

/-- Claim C10: a card whose detail-page scrape failed (scrape_more_details
returned the empty dict) still yields exactly one emitted record, carrying the
card-level link, type, title and pin values, with every detail-derived field
equal to None. -/
theorem c10_failed_details_record_emitted (cards : List Card) (c : Card)
    (hc : c ∈ cards) (hfail : c.moreDetails = none) :
    (get_car_details_pass cards).length = cards.length
    ∧ buildRecord c ∈ get_car_details_pass cards
    ∧ (buildRecord c).link = scrape_link c
    ∧ (buildRecord c).type = c.cardType
    ∧ (buildRecord c).title = c.title
    ∧ (buildRecord c).pin = scrape_pinned_today c
    ∧ (buildRecord c).id = none
    ∧ (buildRecord c).date_published = none
    ∧ (buildRecord c).relative_date = none
    ∧ (buildRecord c).description = none
    ∧ (buildRecord c).image = none
    ∧ (buildRecord c).price = none
    ∧ (buildRecord c).address = none
    ∧ (buildRecord c).additional_details = none
    ∧ (buildRecord c).specifications = none
    ∧ (buildRecord c).views_no = none
    ∧ (buildRecord c).submitter = none
    ∧ (buildRecord c).ads = none
    ∧ (buildRecord c).membership = none
    ∧ (buildRecord c).phone = none := by
  refine ⟨by simp [get_car_details_pass], List.mem_map_of_mem _ hc, ?_⟩
  simp [buildRecord, hfail, mdGetO, mdGetS, mdGetL, mdGetM]

/-- Witness for C10: the orphan card (failed detail scrape) still yields its
record with card-level fields kept and None detail fields. -/
theorem c10_failed_details_record_emitted_witness :
    (get_car_details_pass [orphanCard]).length = [orphanCard].length
    ∧ buildRecord orphanCard ∈ get_car_details_pass [orphanCard]
    ∧ (buildRecord orphanCard).link = scrape_link orphanCard
    ∧ (buildRecord orphanCard).type = orphanCard.cardType
    ∧ (buildRecord orphanCard).title = orphanCard.title
    ∧ (buildRecord orphanCard).pin = scrape_pinned_today orphanCard
    ∧ (buildRecord orphanCard).id = none
    ∧ (buildRecord orphanCard).date_published = none
    ∧ (buildRecord orphanCard).relative_date = none
    ∧ (buildRecord orphanCard).description = none
    ∧ (buildRecord orphanCard).image = none
    ∧ (buildRecord orphanCard).price = none
    ∧ (buildRecord orphanCard).address = none
    ∧ (buildRecord orphanCard).additional_details = none
    ∧ (buildRecord orphanCard).specifications = none
    ∧ (buildRecord orphanCard).views_no = none
    ∧ (buildRecord orphanCard).submitter = none
    ∧ (buildRecord orphanCard).ads = none
    ∧ (buildRecord orphanCard).membership = none
    ∧ (buildRecord orphanCard).phone = none :=
  c10_failed_details_record_emitted [orphanCard] orphanCard (by simp) rfl

/-! ### Character lemmas about the date format -/

lemma digitChar_isDigit {n : Nat} (h : n < 10) : isPyDigit (Char.ofNat (48 + n)) = true := by
  interval_cases n <;> decide

lemma natDigitsF_digits : ∀ (fuel n : Nat), ∀ c ∈ natDigitsF fuel n, isPyDigit c = true := by
  intro fuel
  induction fuel with
  | zero => intro n c hc; simp [natDigitsF] at hc
  | succ fuel ih =>
    intro n c hc
    rw [natDigitsF] at hc
    by_cases h10 : n < 10
    · rw [if_pos h10] at hc
      simp at hc
      subst hc
      exact digitChar_isDigit h10
    · rw [if_neg h10] at hc
      rcases List.mem_append.1 hc with hc | hc
      · exact ih _ c hc
      · simp at hc
        subst hc
        exact digitChar_isDigit (Nat.mod_lt _ (by omega))

lemma padNum_digits {w n : Nat} : ∀ c ∈ padNum w n, isPyDigit c = true := by
  intro c hc
  rcases List.mem_append.1 hc with hc | hc
  · rw [List.eq_of_mem_replicate hc]; decide
  · exact natDigitsF_digits _ _ c hc

lemma dateStr_chars {t : Int} : ∀ c ∈ (dateStr t).toList, isPyDigit c = true ∨ c = '-' := by
  intro c hc
  have hc' : c ∈ padNum 4 (civilFromDays (t.fdiv 86400)).1.toNat
      ++ '-' :: (padNum 2 (civilFromDays (t.fdiv 86400)).2.1.toNat
      ++ '-' :: padNum 2 (civilFromDays (t.fdiv 86400)).2.2.toNat) := by
    simpa [dateStr] using hc
  rcases List.mem_append.1 hc' with h | h
  · exact Or.inl (padNum_digits c h)
  · rcases List.mem_cons.1 h with h | h
    · exact Or.inr h
    · rcases List.mem_append.1 h with h | h
      · exact Or.inl (padNum_digits c h)
      · rcases List.mem_cons.1 h with h | h
        · exact Or.inr h
        · exact Or.inl (padNum_digits c h)

lemma isPyDigit_not_space {c : Char} (h : isPyDigit c = true) : isPySpace c = false := by
  cases hc : isPySpace c
  · rfl
  · exfalso
    have hmem : ((c = ' ' ∨ c = '\t') ∨ c = '\n') ∨ c = '\r' := by
      simpa [isPySpace] using hc
    rcases hmem with ((rfl | rfl) | rfl) | rfl <;> exact absurd h (by decide)

lemma dateStr_no_space {t : Int} : ∀ c ∈ (dateStr t).toList, isPySpace c = false := by
  intro c hc
  rcases dateStr_chars c hc with h | h
  · exact isPyDigit_not_space h
  · subst h; decide

lemma dateStr_ne_nil {t : Int} : (dateStr t).toList ≠ [] := by
  simp [dateStr]

lemma takeWord_append {xs : List Char} (r : List Char)
    (h : ∀ c ∈ xs, isPySpace c = false) : takeWord (xs ++ ' ' :: r) = (xs, ' ' :: r) := by
  induction xs with
  | nil => simp [takeWord, isPySpace]
  | cons x xs ih =>
    have hx : isPySpace x = false := h x (List.mem_cons_self _ _)
    rw [List.cons_append, takeWord, hx]
    simp only [Bool.false_eq_true, if_false]
    rw [ih (fun c hc => h c (List.mem_cons_of_mem _ hc))]

lemma pyFirstWordAux_append {l : List Char} (r : List Char) (hne : l ≠ [])
    (h : ∀ c ∈ l, isPySpace c = false) : pyFirstWordAux (l ++ ' ' :: r) = some l := by
  cases l with
  | nil => exact absurd rfl hne
  | cons c cs =>
    have hc : isPySpace c = false := h c (List.mem_cons_self _ _)
    rw [List.cons_append, pyFirstWordAux, hc]
    simp only [Bool.false_eq_true, if_false]
    rw [takeWord_append r (fun c' hc' => h c' (List.mem_cons_of_mem _ hc'))]

lemma toList_formatDateTime {t : Int} :
    (formatDateTime t).toList = (dateStr t).toList ++ ' ' :: (timeStr t).toList := by
  show (dateStr t ++ " " ++ timeStr t).data = (dateStr t).data ++ ' ' :: (timeStr t).data
  rw [String.data_append, String.data_append, List.append_assoc]
  rfl

lemma pyFirstWord_formatDateTime {t : Int} :
    pyFirstWord (formatDateTime t) = .ok (dateStr t) := by
  rw [pyFirstWord, toList_formatDateTime,
    pyFirstWordAux_append _ dateStr_ne_nil dateStr_no_space]
  rfl

lemma dateStr_ne_Invalid {t : Int} : dateStr t ≠ "Invalid" := by
  intro h
  have hI : 'I' ∈ (dateStr t).toList := by rw [h]; decide
  rcases dateStr_chars 'I' hI with h' | h' <;> exact absurd h' (by decide)

/-! ### C6: the target-day filter -/

/-- Claim C6: every record retained anywhere in a brand job's output passed the
target-day comparison against yesterday computed once from the job start time
(the same target for every page of the job); in particular, when the record's
date_published is a normalized timestamp, the timestamp's date component equals
the target date — and, contrapositively, a record whose normalized date differs
from the target is never in the output. -/
theorem c6_filter_matches_target (start : Int) (pageAtts : List (Nat → FetchOutcome))
    (k : Option String) (d : CarDetail)
    (hmem : pairMem d k (scrape_brand start pageAtts)) :
    detailDateHead d = .ok (dateStr (start - 86400))
    ∧ ∀ t : Int, d.date_published = some (formatDateTime t) →
        dateStr t = dateStr (start - 86400) := by
  have h := scrape_brand_mem hmem
  refine ⟨h.1, fun t ht => ?_⟩
  have h1 := h.1
  simp only [detailDateHead, ht] at h1
  rw [pyFirstWord_formatDateTime] at h1
  exact Except.ok.inj h1

/-- Witness for C6: the retained Sedan record's date component is the target
date of the job started at time 200000. -/
theorem c6_filter_matches_target_witness :
    detailDateHead sedanDetail = .ok (dateStr (200000 - 86400)) :=
  (c6_filter_matches_target 200000 [fun _ => .ok [sedanDetail]] (some "Sedan") sedanDetail
    (by decide)).1

/-! ### C2: unparseable relative times -/

/-- Counterexample to claim C2: a missing (Python None) relative-time value
does not yield the unparseable sentinel — re.search raises TypeError inside the
normalizer (the enclosing scrape_more_details catches it and returns the empty
dict). -/
theorem c2_cex_none_input_raises :
    scrape_publish_date none 0 = .error .typeError := rfl

/-- Claim C2 as amended: for every *string* input in which the relative-time
pattern does not occur, the normalizer returns the distinguished sentinel
"Invalid Relative Time" without raising; a record carrying that sentinel is
excluded by the target-day filter without an exception, and the page attempt
completes normally (here: first attempt, no retries, empty result).  A None
relative-time value instead raises TypeError (see the counterexample). -/
theorem c2_unparseable_excluded (s : String) (now t : Int) (d : CarDetail) (acc : Dataset)
    (hs : searchRel s.toList = none)
    (hd : d.date_published = some "Invalid Relative Time") :
    scrape_publish_date (some s) now = .ok "Invalid Relative Time"
    ∧ filterLoop (dateStr t) [d] acc = (acc, none)
    ∧ scrape_page (fun _ => .ok [d]) (dateStr t) = ⟨[], [], 1⟩ := by
  have hhead : detailDateHead d = .ok "Invalid" := by
    rw [detailDateHead, hd]
    decide
  have hne : ("Invalid" : String) ≠ dateStr t := fun h => dateStr_ne_Invalid h.symm
  have hfl : ∀ acc' : Dataset, filterLoop (dateStr t) [d] acc' = (acc', none) := by
    intro acc'
    simp only [filterLoop, hhead]
    rw [if_neg hne]
  refine ⟨?_, hfl acc, ?_⟩
  · rw [scrape_publish_date, hs]
  · rw [scrape_page, show List.range 3 = [0, 1, 2] from by decide]
    rw [scrape_page_loop]
    simp only [hfl]

/-- A record whose relative time was unparseable, so its date_published holds
the sentinel. -/
def brokenSentinel : CarDetail :=
  { sedanDetail with date_published := some "Invalid Relative Time" }

/-- Witness for C2 (amended): the phrase "yesterday" yields the sentinel, and a
record carrying the sentinel passes through the filter and the page attempt
without effect. -/
theorem c2_unparseable_excluded_witness :
    scrape_publish_date (some "yesterday") 0 = .ok "Invalid Relative Time"
    ∧ filterLoop (dateStr 0) [brokenSentinel] [] = ([], none)
    ∧ scrape_page (fun _ => .ok [brokenSentinel]) (dateStr 0) = ⟨[], [], 1⟩ :=
  c2_unparseable_excluded "yesterday" 0 0 brokenSentinel [] (by decide) rfl

/-! ### C7: exactness of the relative-time normalizer -/

/-- The number of seconds denoted by a lowercased unit word of the regex. -/
def unitSecsOfWord (w : List Char) : Int :=
  if w = secondW then 1
  else if w = minuteW then 60
  else if w = hourW then 3600
  else if w = dayW then 86400
  else 0

lemma takeDigits_append {ds : List Char} {c : Char} {r : List Char}
    (h2 : ∀ x ∈ ds, isPyDigit x = true) (hc : isPyDigit c = false) :
    takeDigits (ds ++ c :: r) = (ds, c :: r) := by
  induction ds with
  | nil => rw [List.nil_append, takeDigits, hc]; simp
  | cons d dtl ih =>
    have hd : isPyDigit d = true := h2 d (List.mem_cons_self _ _)
    rw [List.cons_append, takeDigits, hd]
    simp only [if_true]
    rw [ih (fun x hx => h2 x (List.mem_cons_of_mem _ hx))]

lemma takeSpaces_single {u : Char} {l : List Char} (hu : isPySpace u = false) :
    takeSpaces (' ' :: u :: l) = ([' '], u :: l) := by
  have hsp : isPySpace ' ' = true := by decide
  rw [takeSpaces, hsp]
  simp only [if_true]
  rw [takeSpaces, hu]
  simp

lemma matchWord_eq_self (rest : List Char) {us w : List Char} (h4 : us.map Char.toLower = w) :
    matchWord w (us ++ rest) = true := by
  have hlen : us.length = w.length := by
    have := congrArg List.length h4
    simpa using this
  rw [matchWord, decide_eq_true_eq, ← hlen, List.take_left]
  exact h4

lemma matchWord_false_of_head (w' : List Char) {us rest w : List Char}
    (h4 : us.map Char.toLower = w) (hwne : w ≠ [])
    (hhead : w.head? ≠ w'.head?) (hne' : w' ≠ []) :
    matchWord w' (us ++ rest) = false := by
  cases w' with
  | nil => exact absurd rfl hne'
  | cons w0 wtl =>
    cases us with
    | nil => exact absurd h4.symm hwne
    | cons u utl =>
      have hw : w = Char.toLower u :: utl.map Char.toLower := by rw [← h4]; rfl
      have hu : Char.toLower u ≠ w0 := by
        rw [hw] at hhead
        simpa using hhead
      rw [matchWord]
      apply decide_eq_false
      intro hcontra
      rw [List.cons_append, List.length_cons, List.take_succ_cons, List.map_cons] at hcontra
      exact hu (List.head_eq_of_cons_eq hcontra)

lemma matchUnit_of_lower {us rest w : List Char} (h3 : w ∈ unitWords)
    (h4 : us.map Char.toLower = w) : matchUnit (us ++ rest) = some w := by
  have hself := matchWord_eq_self rest h4
  have h3' : w = secondW ∨ w = minuteW ∨ w = hourW ∨ w = dayW := by
    simpa [unitWords] using h3
  rcases h3' with rfl | rfl | rfl | rfl
  · rw [matchUnit, unitWords]
    simp only [List.find?, hself]
  · have hf1 : matchWord secondW (us ++ rest) = false :=
      matchWord_false_of_head secondW h4 (by decide) (by decide) (by decide)
    rw [matchUnit, unitWords]
    simp only [List.find?, hf1, hself]
  · have hf1 : matchWord secondW (us ++ rest) = false :=
      matchWord_false_of_head secondW h4 (by decide) (by decide) (by decide)
    have hf2 : matchWord minuteW (us ++ rest) = false :=
      matchWord_false_of_head minuteW h4 (by decide) (by decide) (by decide)
    rw [matchUnit, unitWords]
    simp only [List.find?, hf1, hf2, hself]
  · have hf1 : matchWord secondW (us ++ rest) = false :=
      matchWord_false_of_head secondW h4 (by decide) (by decide) (by decide)
    have hf2 : matchWord minuteW (us ++ rest) = false :=
      matchWord_false_of_head minuteW h4 (by decide) (by decide) (by decide)
    have hf3 : matchWord hourW (us ++ rest) = false :=
      matchWord_false_of_head hourW h4 (by decide) (by decide) (by decide)
    rw [matchUnit, unitWords]
    simp only [List.find?, hf1, hf2, hf3, hself]

lemma head_not_space_of_unit {u : Char} {utl : List Char} {w : List Char}
    (h3 : w ∈ unitWords) (h4 : (u :: utl).map Char.toLower = w) : isPySpace u = false := by
  cases hsp : isPySpace u
  · rfl
  · exfalso
    have hmem : ((u = ' ' ∨ u = '\t') ∨ u = '\n') ∨ u = '\r' := by simpa [isPySpace] using hsp
    have hl : Char.toLower u = u := by
      rcases hmem with ((rfl | rfl) | rfl) | rfl <;> decide
    have hw : w = u :: utl.map Char.toLower := by rw [← h4, List.map_cons, hl]
    have h3' : w = secondW ∨ w = minuteW ∨ w = hourW ∨ w = dayW := by
      simpa [unitWords] using h3
    rcases h3' with rfl | rfl | rfl | rfl <;>
      (have hu := List.head_eq_of_cons_eq hw.symm
       rcases hmem with ((rfl | rfl) | rfl) | rfl <;> exact absurd hu (by decide))

lemma matchHere_phrase {ds us rest w : List Char}
    (h1 : ds ≠ []) (h2 : ∀ c ∈ ds, isPyDigit c = true)
    (h3 : w ∈ unitWords) (h4 : us.map Char.toLower = w) :
    matchHere (ds ++ ' ' :: (us ++ rest)) = some (digitsToNat ds, w) := by
  obtain ⟨u, utl, rfl⟩ : ∃ u utl, us = u :: utl := by
    cases us with
    | nil =>
      exfalso
      have : w = [] := h4.symm
      rw [this] at h3
      exact absurd h3 (by decide)
    | cons u utl => exact ⟨u, utl, rfl⟩
  have hu : isPySpace u = false := head_not_space_of_unit h3 h4
  have htd : takeDigits (ds ++ ' ' :: (u :: utl ++ rest)) = (ds, ' ' :: (u :: utl ++ rest)) :=
    takeDigits_append h2 (by decide)
  have hts : takeSpaces (' ' :: (u :: utl ++ rest)) = ([' '], u :: utl ++ rest) := by
    rw [List.cons_append]
    exact takeSpaces_single hu
  have hde : ds.isEmpty = false := by
    cases ds with
    | nil => exact absurd rfl h1
    | cons d dtl => rfl
  rw [matchHere, htd]
  simp only [hde, Bool.false_eq_true, if_false]
  rw [hts]
  simp only [List.isEmpty_cons, Bool.false_eq_true, if_false]
  rw [matchUnit_of_lower h3 h4]
  rfl

lemma searchRel_phrase {ds us rest w : List Char}
    (h1 : ds ≠ []) (h2 : ∀ c ∈ ds, isPyDigit c = true)
    (h3 : w ∈ unitWords) (h4 : us.map Char.toLower = w) :
    searchRel (ds ++ ' ' :: (us ++ rest)) = some (digitsToNat ds, w) := by
  obtain ⟨d0, dtl, rfl⟩ := List.exists_cons_of_ne_nil h1
  rw [List.cons_append, searchRel, ← List.cons_append,
    matchHere_phrase h1 h2 h3 h4]

/-- Claim C7: for every relative-time phrase of the form
"digits SPACE unit-word SPACE ago" — the digits nonempty, the unit word any
casing of second / minute / hour / day — the normalizer returns exactly
now − n·unit as a formatted absolute timestamp with second precision, where n
is the integer denoted by the digit string. -/
theorem c7_normalizer_exact (now : Int) (ds us w : List Char)
    (h1 : ds ≠ []) (h2 : ∀ c ∈ ds, isPyDigit c = true)
    (h3 : w ∈ unitWords) (h4 : us.map Char.toLower = w) :
    scrape_publish_date (some (String.mk (ds ++ ' ' :: (us ++ " ago".toList)))) now
      = .ok (formatDateTime (now - (digitsToNat ds : Int) * unitSecsOfWord w)) := by
  rw [scrape_publish_date]
  rw [show (String.mk (ds ++ ' ' :: (us ++ " ago".toList))).toList
      = ds ++ ' ' :: (us ++ " ago".toList) from rfl]
  rw [searchRel_phrase h1 h2 h3 h4]
  have h3' : w = secondW ∨ w = minuteW ∨ w = hourW ∨ w = dayW := by
    simpa [unitWords] using h3
  rcases h3' with rfl | rfl | rfl | rfl <;> simp [unitSecsOfWord, secondW, minuteW, hourW, dayW]

/-- Witness for C7: "2 Hour ago" at time 86400 normalizes to exactly
86400 − 2·3600 seconds, formatted. -/
theorem c7_normalizer_exact_witness :
    scrape_publish_date (some (String.mk ("2".toList ++ ' ' :: ("Hour".toList ++ " ago".toList)))) 86400
      = .ok (formatDateTime (86400 - (digitsToNat "2".toList : Int) * unitSecsOfWord hourW)) :=
  c7_normalizer_exact 86400 "2".toList "Hour".toList hourW
    (by decide) (by decide) (by decide) (by decide)

end FourSale
